import Mathlib

/-
  Verification of the ride-hailing backend (routes/ride.js, routes/user.js,
  the driver router, the socket handler and the maps utility) against its
  natural-language specification.

  Numeric values are modelled over ℚ; JavaScript Math.round(x) agrees with
  Mathlib round on ℚ (both are ⌊x + 1/2⌋).  Each Express handler is embedded
  as a pure function from the data it reads to either a typed error (the
  4xx JSON response) or the updated record(s) (the mutation it saves).
-/

namespace RideShare

/-- Ride lifecycle states, as listed in the Ride status queries of the source
(`pending`, `searching`, `accepted`, `arrived`, `started`, `completed`,
`cancelled`). -/
inductive RideStatus
  | pending
  | searching
  | accepted
  | arrived
  | started
  | completed
  | cancelled
deriving DecidableEq, Repr

/-- Typed errors corresponding to the 4xx JSON responses of the handlers. -/
inductive RideError
  | RideNotFound
  | Unauthorized
  | RideUnavailable
  | VehicleMismatch
  | DriverUnavailable
  | AlreadyFinalized
  | InvalidStatus
  | InvalidTransition
  | NotCompleted
  | AlreadyRated
  | TrackNotAllowed
  | InvalidAmount
  | InsufficientEarnings
deriving DecidableEq, Repr

/-- Per-km / per-minute rates of one vehicle class (utils/googleMaps
calculateFare rate table rows). -/
structure Rates where
  base : ℚ
  perKm : ℚ
  perMin : ℚ
deriving DecidableEq, Repr

/-- Rate lookup of calculateFare: `baseFares[vehicleType] || baseFares['Car']`,
with the table values of the source. -/
def rateFor (vehicleType : String) : Rates :=
  if vehicleType = "Bike" then ⟨20, 8, 1⟩
  else if vehicleType = "Auto" then ⟨30, 12, 3/2⟩
  else if vehicleType = "Car" then ⟨50, 15, 2⟩
  else if vehicleType = "Truck" then ⟨100, 25, 3⟩
  else ⟨50, 15, 2⟩

/-- JavaScript `Math.round(x * 100) / 100` over ℚ. -/
def round2 (x : ℚ) : ℚ := (round (x * 100) : ℚ) / 100

/-- JavaScript `Math.round(x * 10) / 10` over ℚ. -/
def round1 (x : ℚ) : ℚ := (round (x * 10) : ℚ) / 10

/-- Fare breakdown returned by calculateFare. -/
structure FareBreakdown where
  baseFare : ℚ
  distanceFare : ℚ
  timeFare : ℚ
  totalFare : ℚ
  surgeMultiplier : ℚ
deriving DecidableEq, Repr

/-- Embedding of utils/googleMaps calculateFare: base fare taken from the
rate table (returned as is), distance and time components and the surge-scaled
total each passed through `Math.round(x*100)/100`. -/
def calculateFare (distance duration : ℚ) (vehicleType : String)
    (surgeMultiplier : ℚ) : FareBreakdown :=
  let rates := rateFor vehicleType
  let baseFare := rates.base
  let distanceFare := distance * rates.perKm
  let timeFare := duration * rates.perMin
  let totalFare := (baseFare + distanceFare + timeFare) * surgeMultiplier
  ⟨baseFare, round2 distanceFare, round2 timeFare, round2 totalFare,
    surgeMultiplier⟩

/-- Reference fare function written from the specification text: rates looked
up by vehicle class with unknown classes falling back to the default class,
`total = (base + distance*perKmRate + duration*perMinRate) * surge`, and every
component (base included) rounded to 2 decimal places by standard rounding. -/
def fareSpec (distance duration : ℚ) (vehicleType : String)
    (surge : ℚ) : FareBreakdown :=
  let rates := rateFor vehicleType
  ⟨round2 rates.base,
   round2 (distance * rates.perKm),
   round2 (duration * rates.perMin),
   round2 ((rates.base + distance * rates.perKm + duration * rates.perMin) * surge),
   surge⟩

/-- Fare fields persisted on a ride (`pricing` sub-document). -/
structure Pricing where
  baseFare : ℚ
  distanceFare : ℚ
  timeFare : ℚ
  totalFare : ℚ
  finalAmount : ℚ
deriving DecidableEq, Repr

/-- Rating left by the requester on a ride (`rating.userRating`).  The stored
`rating` value is any number the caller submitted; the route applies no body
validation beyond authentication and the ride-id format check. -/
structure UserRating where
  rating : ℚ
  feedback : String
deriving DecidableEq, Repr

/-- One tracking-log entry (`trackingData` item: coordinates, speed, heading). -/
structure TrackPoint where
  coordinates : ℚ × ℚ
  speed : ℚ
  heading : ℚ
deriving DecidableEq, Repr

/-- Cancellation record (actor, reason, fee). -/
structure CancelRecord where
  actor : String
  reason : String
  fee : ℚ
deriving DecidableEq, Repr

/-- Ride record, restricted to the fields the verified handlers read or
write.  Identities are natural numbers standing for object ids. -/
structure Ride where
  rid : Nat
  user : Nat
  driver : Option Nat
  rideType : String
  status : RideStatus
  pricing : Pricing
  userRating : Option UserRating
  trackingLog : List TrackPoint
  cancelInfo : Option CancelRecord
deriving DecidableEq, Repr

/-- Driver fields the accept handler reads from `req.user`. -/
structure Driver where
  id : Nat
  vehicleType : String
  isAvailable : Bool
deriving DecidableEq, Repr

/-- Modelled from the spec: the schema default of the `status` field of the
missing models/Ride.js — "created on request submission (status=`pending`)". -/
def defaultRideStatus : RideStatus := .pending

/-- Embedding of the ride-creation handler routes/ride.js POST /request:
on a failed route estimate it answers 400 before any state is persisted;
otherwise it computes `calculateFare(distance, duration, rideType)` (surge
defaulted to 1) and saves a ride whose `pricing.finalAmount` is the computed
`totalFare` and whose remaining fields take their schema defaults. -/
def createRide (rid userId : Nat) (rideType : String) (routeOk : Bool)
    (distance duration : ℚ) : Option Ride :=
  if routeOk then
    let fare := calculateFare distance duration rideType 1
    some { rid := rid
           user := userId
           driver := none
           rideType := rideType
           status := defaultRideStatus
           pricing := ⟨fare.baseFare, fare.distanceFare, fare.timeFare,
                       fare.totalFare, fare.totalFare⟩
           userRating := none
           trackingLog := []
           cancelInfo := none }
  else none

/-- Embedding of the dispatch attempt that follows `ride.save()` in
routes/ride.js POST /request: the handler emits `new-ride-request` over
Socket.IO to connected drivers and performs no further write to the ride
record, so the ride is returned unchanged. -/
def dispatchRide (ride : Ride) : Ride := ride

/-- Guard phase of the accept handler (driver router POST
/accept-ride/:rideId): status must be exactly `pending`, the vehicle types
must match, and the driver must be available, in that order. -/
def acceptCheck (ride : Ride) (d : Driver) : Option RideError :=
  if ride.status ≠ .pending then some .RideUnavailable
  else if ride.rideType ≠ d.vehicleType then some .VehicleMismatch
  else if ¬ d.isAvailable then some .DriverUnavailable
  else none

/-- Write phase of the accept handler: `ride.driver = req.user._id;
ride.status = 'accepted'; await ride.save()`. -/
def acceptWrite (ride : Ride) (d : Driver) : Ride :=
  { ride with driver := some d.id, status := .accepted }

/-- The accept handler run to completion against a fixed ride snapshot
(guard phase followed, on success, by the write phase). -/
def acceptRide (ride : Ride) (d : Driver) : Except RideError Ride :=
  match acceptCheck ride d with
  | some e => .error e
  | none => .ok (acceptWrite ride d)

/-- Actor label recorded by the cancel handler (`ride.cancelRide('user', ...)`). -/
def actorUser : String := "user"

/-- Cancellation reason fixture used by the closed theorems. -/
def lateReason : String := "late"

/-- Cancellation fee computed by routes/ride.js POST /:rideId/cancel:
`Math.min(finalAmount * 0.1, 50)` when the ride is `accepted` or `arrived`,
0 otherwise. -/
def cancellationFeeOf (ride : Ride) : ℚ :=
  if ride.status = .accepted ∨ ride.status = .arrived then
    min (ride.pricing.finalAmount * (1/10)) 50
  else 0

/-- Modelled from the spec: `Ride.cancelRide(actor, reason, fee)` of the
missing models/Ride.js — records the cancellation (actor, reason, fee) and
moves the ride to the terminal `cancelled` state. -/
def Ride.cancelRide (ride : Ride) (actor reason : String) (fee : ℚ) : Ride :=
  { ride with status := .cancelled, cancelInfo := some ⟨actor, reason, fee⟩ }

/-- Embedding of routes/ride.js POST /:rideId/cancel: only the requester may
cancel; a `completed` or already `cancelled` ride is refused before any
mutation; otherwise the fee is computed, the ride cancelled, and the response
reports the fee together with `Math.max(0, finalAmount - cancellationFee)`. -/
def cancelCall (ride : Ride) (callerId : Nat) (reason : String) :
    Except RideError (Ride × ℚ × ℚ) :=
  if ride.user ≠ callerId then .error .Unauthorized
  else if ride.status = .completed ∨ ride.status = .cancelled then
    .error .AlreadyFinalized
  else
    let fee := cancellationFeeOf ride
    .ok (ride.cancelRide actorUser reason fee, fee,
         max 0 (ride.pricing.finalAmount - fee))

/-- Modelled from the spec: `Ride.updateStatus` of the missing models/Ride.js.
Section 4.1 allows exactly the driver-initiated chain accepted → arrived →
started → completed; out-of-order transitions fail with `InvalidTransition`
and the terminal states admit no outgoing transition. -/
def Ride.updateStatus (ride : Ride) (newStatus : RideStatus) :
    Except RideError Ride :=
  if (ride.status = .accepted ∧ newStatus = .arrived)
      ∨ (ride.status = .arrived ∧ newStatus = .started)
      ∨ (ride.status = .started ∧ newStatus = .completed) then
    .ok { ride with status := newStatus }
  else .error .InvalidTransition

/-- Embedding of routes/ride.js PATCH /:rideId/status: the caller must be the
assigned driver, the requested status must be one of `accepted`, `arrived`,
`started`, `completed`, and the transition itself is delegated to
`ride.updateStatus`. -/
def updateStatusCall (ride : Ride) (callerId : Nat) (newStatus : RideStatus) :
    Except RideError Ride :=
  if ride.driver ≠ some callerId then .error .Unauthorized
  else if newStatus = .accepted ∨ newStatus = .arrived
      ∨ newStatus = .started ∨ newStatus = .completed then
    ride.updateStatus newStatus
  else .error .InvalidStatus

/-- JavaScript truthiness of the stored `ride.rating.userRating.rating`
value: defined and different from 0. -/
def ratingTruthy (ride : Ride) : Prop :=
  match ride.userRating with
  | some ur => ur.rating ≠ 0
  | none => False

instance (ride : Ride) : Decidable (ratingTruthy ride) := by
  unfold ratingTruthy
  cases ride.userRating <;> infer_instance

/-- Guard and record-update part of routes/ride.js POST /:rideId/rate: only
the requester may rate, the ride must be `completed`, and the request is
refused when the stored rating value is truthy; on success
`rating.userRating` is overwritten with the submitted rating. -/
def rateCall (ride : Ride) (callerId : Nat) (rating : ℚ) (feedback : String) :
    Except RideError Ride :=
  if ride.user ≠ callerId then .error .Unauthorized
  else if ride.status ≠ .completed then .error .NotCompleted
  else if ratingTruthy ride then .error .AlreadyRated
  else .ok { ride with userRating := some ⟨rating, feedback⟩ }

/-- Modelled from the spec: `Ride.addTrackingLocation(coordinates, speed,
heading)` of the missing models/Ride.js — appends one entry to the ordered
tracking log. -/
def Ride.addTrackingLocation (ride : Ride) (coords : ℚ × ℚ)
    (speed heading : ℚ) : Ride :=
  { ride with trackingLog := ride.trackingLog ++ [⟨coords, speed, heading⟩] }

/-- Embedding of routes/ride.js POST /:rideId/track: the caller must be the
assigned driver and the guard admits exactly the statuses `started` and
`completed`; on success one entry is appended to the tracking log. -/
def trackCall (ride : Ride) (callerId : Nat) (coords : ℚ × ℚ)
    (speed heading : ℚ) : Except RideError Ride :=
  if ride.driver ≠ some callerId then .error .Unauthorized
  else if ¬ (ride.status = .started ∨ ride.status = .completed) then
    .error .TrackNotAllowed
  else .ok (ride.addTrackingLocation coords speed heading)

/-- One call against a single ride record, covering every handler of the
verified surface that can mutate a ride. -/
inductive RideOp
  | accept (d : Driver)
  | cancel (callerId : Nat) (reason : String)
  | updStatus (callerId : Nat) (s : RideStatus)
  | rate (callerId : Nat) (rating : ℚ) (feedback : String)
  | track (callerId : Nat) (coords : ℚ × ℚ) (speed heading : ℚ)

/-- Dispatch of one call to the corresponding handler. -/
def applyOp (ride : Ride) (op : RideOp) : Except RideError Ride :=
  match op with
  | .accept d => acceptRide ride d
  | .cancel uid reason => (cancelCall ride uid reason).map (fun t => t.1)
  | .updStatus uid s => updateStatusCall ride uid s
  | .rate uid r fb => rateCall ride uid r fb
  | .track uid c s h => trackCall ride uid c s h

/-- Effect of one call on the stored ride: a handler that answers an error
performs no save, so the record is unchanged. -/
def stepRide (ride : Ride) (op : RideOp) : Ride :=
  match applyOp ride op with
  | .ok r => r
  | .error _ => ride

/-- Effect of a sequence of calls on the stored ride. -/
def runOps (ride : Ride) (ops : List RideOp) : Ride :=
  ops.foldl stepRide ride

/-- Ratings carried by the completed rides of a driver that have a populated
`rating.userRating.rating` — the `$match` stage of the aggregation in
routes/ride.js POST /:rideId/rate (`$exists: true`). -/
def ratedRatings (rides : List Ride) (driverId : Nat) : List ℚ :=
  (rides.filter (fun r =>
    r.driver = some driverId ∧ r.status = .completed ∧ r.userRating.isSome)).filterMap
    (fun r => (r.userRating.map (fun ur => ur.rating)))

/-- Driver average recomputed by the rate handler: the `$avg` over the
matched rides, written back as `Math.round(avg * 10) / 10`; `none` when the
aggregation returns no group (no matched ride). -/
def driverAverage (rides : List Ride) (driverId : Nat) : Option ℚ :=
  if (ratedRatings rides driverId).length = 0 then none
  else some (round1 ((ratedRatings rides driverId).sum /
    ((ratedRatings rides driverId).length : ℚ)))

/-- Association-list update of a driver profile rating. -/
def setDriverRating (profiles : List (Nat × ℚ)) (driverId : Nat) (v : ℚ) :
    List (Nat × ℚ) :=
  profiles.map (fun p => if p.1 = driverId then (p.1, v) else p)

/-- Embedding of the whole of routes/ride.js POST /:rideId/rate over a store
of rides and driver profile ratings: find the ride, run the guards, save the
rating, then (when the ride has a driver and the aggregation over the updated
store returns a group) write the rounded average back to the driver profile. -/
def rateEndpoint (rides : List Ride) (profiles : List (Nat × ℚ))
    (rideId callerId : Nat) (rating : ℚ) (feedback : String) :
    Except RideError (List Ride × List (Nat × ℚ)) :=
  match rides.find? (fun r => r.rid = rideId) with
  | none => .error .RideNotFound
  | some ride =>
    match rateCall ride callerId rating feedback with
    | .error e => .error e
    | .ok ride' =>
      match ride.driver with
      | none => .ok (rides.map (fun r => if r.rid = rideId then ride' else r), profiles)
      | some d =>
        match driverAverage (rides.map (fun r => if r.rid = rideId then ride' else r)) d with
        | none => .ok (rides.map (fun r => if r.rid = rideId then ride' else r), profiles)
        | some avg =>
          .ok (rides.map (fun r => if r.rid = rideId then ride' else r),
               setDriverRating profiles d avg)

/-- Sum of `pricing.finalAmount` over the completed rides of a driver — the
`$sum` aggregation of the withdraw handler. -/
def driverEarnings (rides : List Ride) (driverId : Nat) : ℚ :=
  ((rides.filter (fun r =>
    r.driver = some driverId ∧ r.status = .completed)).map
    (fun r => r.pricing.finalAmount)).sum

/-- Withdrawal request record saved by the withdraw handler (a Payment with
type `withdrawal` and status `pending`). -/
structure WithdrawalReq where
  user : Nat
  amount : ℚ
deriving DecidableEq, Repr

/-- Embedding of the driver router POST /withdraw: reject a non-positive
amount, reject an amount above the sum of completed-ride earnings, and
otherwise append a pending withdrawal request.  The list of previously
submitted requests is never consulted. -/
def withdrawCall (rides : List Ride) (requests : List WithdrawalReq)
    (driverId : Nat) (amount : ℚ) : Except RideError (List WithdrawalReq) :=
  if amount ≤ 0 then .error .InvalidAmount
  else if driverEarnings rides driverId < amount then
    .error .InsufficientEarnings
  else .ok (requests ++ [⟨driverId, amount⟩])

/-- Progress of one in-flight accept attempt: not yet started, guard phase
executed (`none` meaning the guard passed), or finished with its response
(`none` meaning the 200 success response). -/
inductive APhase
  | start
  | checked (r : Option RideError)
  | done (r : Option RideError)
deriving DecidableEq, Repr

/-- Shared state of several concurrent accept attempts on one ride: the
stored ride record plus each attempt's driver and progress. -/
structure AcceptSys where
  ride : Ride
  attempts : List (Driver × APhase)
deriving DecidableEq, Repr

/-- One scheduler step of attempt `i`.  The handler is the two-phase
read-check-then-save of the source: the guard phase evaluates `acceptCheck`
against the ride as currently stored, and the write phase (reached only when
the guard passed) saves the driver assignment and the `accepted` status. -/
def stepAttempt (s : AcceptSys) (i : Nat) : AcceptSys :=
  match s.attempts.get? i with
  | none => s
  | some (d, ph) =>
    match ph with
    | .start =>
        { s with attempts := s.attempts.set i (d, .checked (acceptCheck s.ride d)) }
    | .checked none =>
        { ride := acceptWrite s.ride d
          attempts := s.attempts.set i (d, .done none) }
    | .checked (some e) =>
        { s with attempts := s.attempts.set i (d, .done (some e)) }
    | .done _ => s

/-- Execution of the attempts under an interleaving chosen by the scheduler. -/
def runSched (s : AcceptSys) (sched : List Nat) : AcceptSys :=
  sched.foldl stepAttempt s

/-- Number of attempts that finished with the success response. -/
def successCount (s : AcceptSys) : Nat :=
  (s.attempts.filter (fun p => p.2 = APhase.done none)).length

/-- Concrete driver fixtures used by the closed theorems. -/
def carDriver : Driver := ⟨1, "Car", true⟩

def carDriver2 : Driver := ⟨2, "Car", true⟩

/-- Pricing of the 6.2 km / 18 min Car ride (fare 179). -/
def basePricing : Pricing := ⟨50, 93, 36, 179, 179⟩

def pendingRide : Ride :=
  ⟨1, 1, none, "Car", .pending, basePricing, none, [], none⟩

def searchingRide : Ride := { pendingRide with status := .searching }

def acceptedRide500 : Ride :=
  { pendingRide with
    status := .accepted
    driver := some 5
    pricing := ⟨50, 0, 0, 500, 500⟩ }

def completedRide : Ride :=
  { pendingRide with status := .completed, driver := some 5 }

def ratedZeroRide : Ride :=
  { completedRide with userRating := some ⟨0, "first"⟩ }

/-- Two concurrent accept attempts by distinct matching available drivers on
the same pending ride, neither yet started. -/
def sysTwoAttempts : AcceptSys :=
  ⟨pendingRide, [(carDriver, .start), (carDriver2, .start)]⟩

/-- Total amount requested across a list of withdrawal requests. -/
def withdrawnTotal (ws : List WithdrawalReq) : ℚ :=
  (ws.map (fun w => w.amount)).sum

/-- The completed fixture ride after being rated 4. -/
def ratedRide : Ride := { completedRide with userRating := some ⟨4, "good"⟩ }

/-- A sample of calls of every kind, thrown at a terminal ride. -/
def opsSample : List RideOp :=
  [.accept carDriver, .updStatus 5 .arrived, .rate 1 4 "good",
   .track 5 ((0 : ℚ), (0 : ℚ)) 0 0, .cancel 1 "x"]

instance {ε α : Type} [DecidableEq ε] [DecidableEq α] :
    DecidableEq (Except ε α) := fun a b =>
  match a, b with
  | .error e, .error f =>
    if h : e = f then isTrue (by rw [h])
    else isFalse (fun hh => by cases hh; exact h rfl)
  | .ok x, .ok y =>
    if h : x = y then isTrue (by rw [h])
    else isFalse (fun hh => by cases hh; exact h rfl)
  | .error _, .ok _ => isFalse (fun hh => Except.noConfusion hh)
  | .ok _, .error _ => isFalse (fun hh => Except.noConfusion hh)

lemma round2_ofNat (n : ℕ) : round2 ((n : ℚ)) = n := by
  unfold round2
  rw [show ((n : ℚ) * 100) = ((n * 100 : ℕ) : ℚ) by push_cast; ring, round_natCast]
  push_cast
  field_simp

lemma rateFor_base_round2 (v : String) :
    round2 (rateFor v).base = (rateFor v).base := by
  unfold rateFor
  repeat' split
  · simpa using round2_ofNat 20
  · simpa using round2_ofNat 30
  · simpa using round2_ofNat 50
  · simpa using round2_ofNat 100
  · simpa using round2_ofNat 50

/-- C6: the fare engine agrees with the reference definition written from the
specification — rate-table lookup with the default-class fallback for unknown
classes, `total = (base + distance*perKmRate + duration*perMinRate) * surge`,
every component rounded to 2 decimal places by standard rounding — and it is
deterministic: identical inputs produce identical output. -/
theorem calculateFare_matches_spec (distance duration : ℚ)
    (vehicleType : String) (surge : ℚ) :
    calculateFare distance duration vehicleType surge =
      fareSpec distance duration vehicleType surge ∧
    calculateFare distance duration vehicleType surge =
      calculateFare distance duration vehicleType surge := by
  refine ⟨?_, rfl⟩
  simp only [calculateFare, fareSpec]
  rw [rateFor_base_round2]

/-- C2 (counterexample): a ride in `searching` is refused with RideUnavailable
by the accept handler, so RideUnavailable is not characterized by the status
being neither `searching` nor `pending`: the claimed equivalence is false at
this input. -/
theorem accept_searching_counterexample :
    ¬ ((acceptRide searchingRide carDriver = .error .RideUnavailable) ↔
        (searchingRide.status ≠ .searching ∧ searchingRide.status ≠ .pending)) := by
  decide

/-- C2 (amended): an accept-ride call fails with RideUnavailable exactly when
the ride's status is not `pending` at claim time (a `searching` ride is
refused too), and fails with VehicleMismatch exactly when the status is
`pending` and the driver's vehicle class differs from the ride's requested
class. -/
theorem accept_error_characterization (ride : Ride) (d : Driver) :
    (acceptRide ride d = .error .RideUnavailable ↔ ride.status ≠ .pending) ∧
    (acceptRide ride d = .error .VehicleMismatch ↔
      ride.status = .pending ∧ ride.rideType ≠ d.vehicleType) := by
  unfold acceptRide acceptCheck
  by_cases h1 : ride.status = .pending <;>
    by_cases h2 : ride.rideType = d.vehicleType <;>
      by_cases h3 : d.isAvailable = true <;>
        simp [h1, h2, h3]

/-- C1: the accept handler is a non-atomic read-check-then-save, so two
concurrent accept attempts by distinct matching available drivers on the same
pending ride, interleaved check ∥ check ∥ save ∥ save, both receive the
success response — no attempt observes RideUnavailable — and the stored
driver is the second writer, contradicting the claimed at-most-one
acceptance via a single atomic conditional update. -/
theorem accept_race_two_winners :
    successCount (runSched sysTwoAttempts [0, 1, 0, 1]) = 2 ∧
    (runSched sysTwoAttempts [0, 1, 0, 1]).ride.driver = some carDriver2.id ∧
    (runSched sysTwoAttempts [0, 1, 0, 1]).ride.status = .accepted := by
  decide

/-- C3 (counterexample): a ride created with the 6.2 km / 18 min Car estimate
is still `pending` after the first dispatch attempt — the dispatch only
broadcasts `new-ride-request` and never writes `searching`. -/
theorem create_dispatch_stays_pending_cx :
    (createRide 1 7 "Car" true (31/5) 18).map
        (fun r => (dispatchRide r).status) ≠ some .searching ∧
    (createRide 1 7 "Car" true (31/5) 18).map
        (fun r => (dispatchRide r).status) = some .pending := by
  decide

/-- C3 (amended): every successful ride creation with route estimate
(distance d, duration t) and vehicle class c persists a ride whose
`pricing.finalAmount` equals `fare(d, t, c, 1).total` and whose status is
`pending` immediately after creation and still `pending` after the first
dispatch attempt. -/
theorem create_ride_fare_and_status (rid uid : Nat) (c : String) (d t : ℚ) :
    ∃ r, createRide rid uid c true d t = some r ∧
      r.pricing.finalAmount = (calculateFare d t c 1).totalFare ∧
      r.status = .pending ∧
      (dispatchRide r).status = .pending := by
  unfold createRide
  rw [if_pos rfl]
  exact ⟨_, rfl, rfl, rfl, rfl⟩

/-- C4: a cancellation by the requester of a non-terminal ride with a
non-negative fare succeeds; the fee is min(10% of the fare, the fixed cap 50)
for status `accepted` or `arrived` and 0 for every other non-terminal status;
the reported refund equals fare minus fee and is non-negative. -/
theorem cancel_fee_and_refund (ride : Ride) (uid : Nat) (reason : String)
    (howner : ride.user = uid)
    (hterm : ¬ (ride.status = .completed ∨ ride.status = .cancelled))
    (hfare : 0 ≤ ride.pricing.finalAmount) :
    cancelCall ride uid reason =
      .ok (ride.cancelRide actorUser reason (cancellationFeeOf ride),
           cancellationFeeOf ride,
           ride.pricing.finalAmount - cancellationFeeOf ride) ∧
    cancellationFeeOf ride =
      (if ride.status = .accepted ∨ ride.status = .arrived
       then min (ride.pricing.finalAmount * (1 / 10)) 50 else 0) ∧
    0 ≤ ride.pricing.finalAmount - cancellationFeeOf ride := by
  have hfee_le : cancellationFeeOf ride ≤ ride.pricing.finalAmount := by
    unfold cancellationFeeOf
    split
    · calc min (ride.pricing.finalAmount * (1 / 10)) 50
          ≤ ride.pricing.finalAmount * (1 / 10) := min_le_left _ _
        _ ≤ ride.pricing.finalAmount := by linarith
    · exact hfare
  refine ⟨?_, rfl, by linarith⟩
  unfold cancelCall
  rw [if_neg (not_not_intro howner), if_neg hterm]
  show Except.ok
      (ride.cancelRide actorUser reason (cancellationFeeOf ride),
       cancellationFeeOf ride,
       max 0 (ride.pricing.finalAmount - cancellationFeeOf ride)) = _
  rw [max_eq_right (by linarith)]

/-- C4 witness: cancelling the concrete `accepted` ride with fare 500 through
the theorem yields fee min(50, 50) = 50 and refund 450. -/
theorem cancel_fee_witness :
    (cancelCall acceptedRide500 1 "plans changed" =
      .ok (acceptedRide500.cancelRide actorUser "plans changed"
             (cancellationFeeOf acceptedRide500),
           cancellationFeeOf acceptedRide500,
           acceptedRide500.pricing.finalAmount -
             cancellationFeeOf acceptedRide500) ∧
    cancellationFeeOf acceptedRide500 =
      (if acceptedRide500.status = .accepted ∨ acceptedRide500.status = .arrived
       then min (acceptedRide500.pricing.finalAmount * (1 / 10)) 50 else 0) ∧
    0 ≤ acceptedRide500.pricing.finalAmount -
          cancellationFeeOf acceptedRide500) ∧
    cancellationFeeOf acceptedRide500 = 50 :=
  ⟨cancel_fee_and_refund acceptedRide500 1 "plans changed" rfl (by decide)
      (by norm_num [acceptedRide500, pendingRide]),
   by norm_num [cancellationFeeOf, acceptedRide500, pendingRide]⟩

/-- C8 (counterexample): a tracking call on the concrete `completed` ride
succeeds and appends an entry to the tracking log although the status is not
`started`, contradicting the claim that entries are appended only while the
status is `started`. -/
theorem track_completed_appends_cx :
    completedRide.status ≠ .started ∧
    trackCall completedRide 5 ((0 : ℚ), (0 : ℚ)) 0 0 =
      .ok (completedRide.addTrackingLocation ((0 : ℚ), (0 : ℚ)) 0 0) ∧
    (completedRide.addTrackingLocation ((0 : ℚ), (0 : ℚ)) 0 0).trackingLog ≠
      completedRide.trackingLog := by
  decide

/-- C8 (amended): tracking entries are appended only while the ride's status
is `started` or `completed` — a tracking call on a ride in any other status
fails and leaves the record unchanged, while on a `started`/`completed` ride
with the calling driver assigned it appends exactly one entry. -/
theorem track_only_started_or_completed (ride : Ride) (uid : Nat)
    (coords : ℚ × ℚ) (speed heading : ℚ) :
    (¬ (ride.status = .started ∨ ride.status = .completed) →
      stepRide ride (.track uid coords speed heading) = ride) ∧
    ((ride.status = .started ∨ ride.status = .completed) →
      ride.driver = some uid →
      trackCall ride uid coords speed heading =
        .ok (ride.addTrackingLocation coords speed heading)) := by
  constructor
  · intro h
    by_cases hd : ride.driver = some uid
    · have he : applyOp ride (.track uid coords speed heading) =
          .error .TrackNotAllowed := by
        simp only [applyOp, trackCall]
        rw [if_neg (not_not_intro hd), if_pos h]
      simp [stepRide, he]
    · have he : applyOp ride (.track uid coords speed heading) =
          .error .Unauthorized := by
        simp only [applyOp, trackCall]
        rw [if_pos hd]
      simp [stepRide, he]
  · intro h hd
    unfold trackCall
    rw [if_neg (not_not_intro hd), if_neg (not_not_intro h)]

/-- C8 witness: a tracking call on the concrete `pending` ride leaves it
unchanged, and on the concrete `completed` ride appends the entry. -/
theorem track_guard_witness :
    stepRide pendingRide (.track 5 ((0 : ℚ), (0 : ℚ)) 0 0) = pendingRide ∧
    trackCall completedRide 5 ((0 : ℚ), (0 : ℚ)) 0 0 =
      .ok (completedRide.addTrackingLocation ((0 : ℚ), (0 : ℚ)) 0 0) :=
  ⟨(track_only_started_or_completed pendingRide 5 (0, 0) 0 0).1 (by decide),
   (track_only_started_or_completed completedRide 5 (0, 0) 0 0).2
     (by decide) rfl⟩

/-- C9 (counterexample): the already-rated guard tests JavaScript truthiness
of the stored rating, so a completed ride first rated 0 is successfully
rated a second time — the rating sub-record is populated twice, contradicting
the claim that every rate call on an already-rated ride fails. -/
theorem rate_twice_zero_cx :
    rateCall completedRide 1 0 "first" = .ok ratedZeroRide ∧
    rateCall ratedZeroRide 1 5 "second" =
      .ok { ratedZeroRide with userRating := some ⟨5, "second"⟩ } := by
  decide

lemma rateCall_ok_cases (ride : Ride) (uid : Nat) (rating : ℚ) (fb : String)
    (r' : Ride) (h : rateCall ride uid rating fb = .ok r') :
    ride.user = uid ∧ ride.status = .completed ∧ ¬ ratingTruthy ride ∧
    r' = { ride with userRating := some ⟨rating, fb⟩ } := by
  unfold rateCall at h
  by_cases h1 : ride.user = uid
  · by_cases h2 : ride.status = .completed
    · by_cases h3 : ratingTruthy ride
      · rw [if_neg (not_not_intro h1), if_neg (not_not_intro h2),
            if_pos h3] at h
        simp at h
      · rw [if_neg (not_not_intro h1), if_neg (not_not_intro h2),
            if_neg h3] at h
        simp only [Except.ok.injEq] at h
        exact ⟨h1, h2, h3, h.symm⟩
    · rw [if_neg (not_not_intro h1), if_pos h2] at h
      simp at h
  · rw [if_pos h1] at h
    simp at h

/-- C9 (amended): the rating sub-record is guarded as follows — a rate call
on a ride that is not `completed` fails and leaves the ride unchanged, a rate
call on a ride whose stored rating value is truthy (present and nonzero)
fails and leaves the ride unchanged, and every successful rate call happens
on a completed ride whose stored rating value is absent or 0; hence the
sub-record is populated at most once by nonzero ratings, but a stored rating
of 0 does not block re-rating. -/
theorem rate_guard_characterization (ride : Ride) (uid : Nat) (rating : ℚ)
    (fb : String) :
    (ride.status ≠ .completed → stepRide ride (.rate uid rating fb) = ride) ∧
    (ratingTruthy ride → stepRide ride (.rate uid rating fb) = ride) ∧
    (∀ r', rateCall ride uid rating fb = .ok r' →
      ride.status = .completed ∧ ¬ ratingTruthy ride ∧
      r' = { ride with userRating := some ⟨rating, fb⟩ }) := by
  refine ⟨?_, ?_, ?_⟩
  · intro h
    by_cases h1 : ride.user = uid
    · have he : applyOp ride (.rate uid rating fb) = .error .NotCompleted := by
        simp only [applyOp, rateCall]
        rw [if_neg (not_not_intro h1), if_pos h]
      simp [stepRide, he]
    · have he : applyOp ride (.rate uid rating fb) = .error .Unauthorized := by
        simp only [applyOp, rateCall]
        rw [if_pos h1]
      simp [stepRide, he]
  · intro h
    by_cases h1 : ride.user = uid
    · by_cases h2 : ride.status = .completed
      · have he : applyOp ride (.rate uid rating fb) =
            .error .AlreadyRated := by
          simp only [applyOp, rateCall]
          rw [if_neg (not_not_intro h1), if_neg (not_not_intro h2), if_pos h]
        simp [stepRide, he]
      · have he : applyOp ride (.rate uid rating fb) =
            .error .NotCompleted := by
          simp only [applyOp, rateCall]
          rw [if_neg (not_not_intro h1), if_pos h2]
        simp [stepRide, he]
    · have he : applyOp ride (.rate uid rating fb) = .error .Unauthorized := by
        simp only [applyOp, rateCall]
        rw [if_pos h1]
      simp [stepRide, he]
  · intro r' h
    exact (rateCall_ok_cases ride uid rating fb r' h).2

/-- C9 witness: the rate guards run on concrete rides — a `pending` ride is
unchanged by a rate call, a completed ride already rated 5 is unchanged, and
the successful rate of the unrated completed ride populates the record. -/
theorem rate_guard_witness :
    stepRide pendingRide (.rate 1 4 "x") = pendingRide ∧
    stepRide { completedRide with userRating := some ⟨5, "ok"⟩ }
        (.rate 1 4 "x") =
      { completedRide with userRating := some ⟨5, "ok"⟩ } ∧
    (completedRide.status = .completed ∧ ¬ ratingTruthy completedRide ∧
      ratedRide = { completedRide with userRating := some ⟨4, "good"⟩ }) :=
  ⟨(rate_guard_characterization pendingRide 1 4 "x").1 (by decide),
   (rate_guard_characterization
      { completedRide with userRating := some ⟨5, "ok"⟩ } 1 4 "x").2.1
     (by decide),
   (rate_guard_characterization completedRide 1 4 "good").2.2 ratedRide
     (by decide)⟩

/-- C10: a withdrawal request by a driver succeeds whenever 0 < amount ≤ the
sum of `pricing.finalAmount` over the driver's completed rides, whatever
withdrawal requests were submitted before; submitting the same amount twice
therefore succeeds twice and the total requested grows by twice the amount —
the same earnings can be withdrawn more than once. -/
theorem withdraw_ignores_prior_requests (rides : List Ride)
    (ws : List WithdrawalReq) (d : Nat) (a : ℚ)
    (hpos : 0 < a) (hle : a ≤ driverEarnings rides d) :
    withdrawCall rides ws d a = .ok (ws ++ [⟨d, a⟩]) ∧
    withdrawCall rides (ws ++ [⟨d, a⟩]) d a =
      .ok (ws ++ [⟨d, a⟩] ++ [⟨d, a⟩]) ∧
    withdrawnTotal (ws ++ [⟨d, a⟩] ++ [⟨d, a⟩]) =
      withdrawnTotal ws + 2 * a := by
  have h1 : withdrawCall rides ws d a = .ok (ws ++ [⟨d, a⟩]) := by
    unfold withdrawCall
    rw [if_neg (not_le.mpr hpos), if_neg (not_lt.mpr hle)]
  have h2 : withdrawCall rides (ws ++ [⟨d, a⟩]) d a =
      .ok (ws ++ [⟨d, a⟩] ++ [⟨d, a⟩]) := by
    unfold withdrawCall
    rw [if_neg (not_le.mpr hpos), if_neg (not_lt.mpr hle)]
  refine ⟨h1, h2, ?_⟩
  simp [withdrawnTotal]
  ring

/-- C10 witness: with a single completed ride of fare 179, the driver
withdraws 179 twice; both requests succeed and 358 — twice the earnings — is
requested in total. -/
theorem withdraw_witness :
    (withdrawCall [completedRide] [] 5 179 = .ok ([] ++ [⟨5, 179⟩]) ∧
    withdrawCall [completedRide] ([] ++ [⟨5, 179⟩]) 5 179 =
      .ok ([] ++ [⟨5, 179⟩] ++ [⟨5, 179⟩]) ∧
    withdrawnTotal ([] ++ [⟨5, 179⟩] ++ [⟨5, 179⟩]) =
      withdrawnTotal [] + 2 * 179) ∧
    driverEarnings [completedRide] 5 = 179 :=
  ⟨withdraw_ignores_prior_requests [completedRide] [] 5 179 (by norm_num)
      (by norm_num [driverEarnings, completedRide, pendingRide, basePricing]),
   by norm_num [driverEarnings, completedRide, pendingRide, basePricing]⟩

lemma trackCall_ok_cases (ride : Ride) (uid : Nat) (coords : ℚ × ℚ)
    (speed heading : ℚ) (r' : Ride)
    (h : trackCall ride uid coords speed heading = .ok r') :
    r' = ride.addTrackingLocation coords speed heading := by
  unfold trackCall at h
  by_cases h1 : ride.driver = some uid
  · by_cases h2 : ride.status = .started ∨ ride.status = .completed
    · rw [if_neg (not_not_intro h1), if_neg (not_not_intro h2)] at h
      simp only [Except.ok.injEq] at h
      exact h.symm
    · rw [if_neg (not_not_intro h1), if_pos h2] at h
      simp at h
  · rw [if_pos h1] at h
    simp at h

lemma stepRide_terminal (ride : Ride) (op : RideOp)
    (h : ride.status = .completed ∨ ride.status = .cancelled) :
    (stepRide ride op).status = ride.status := by
  have hnp : ride.status ≠ .pending := by
    rcases h with h | h <;> simp [h]
  cases op with
  | accept d =>
      have he : applyOp ride (.accept d) = .error .RideUnavailable := by
        simp only [applyOp, acceptRide, acceptCheck]
        rw [if_pos hnp]
      simp [stepRide, he]
  | cancel uid reason =>
      by_cases hu : ride.user = uid
      · have he : applyOp ride (.cancel uid reason) =
            .error .AlreadyFinalized := by
          simp only [applyOp, cancelCall]
          rw [if_neg (not_not_intro hu), if_pos h]
          rfl
        simp [stepRide, he]
      · have he : applyOp ride (.cancel uid reason) =
            .error .Unauthorized := by
          simp only [applyOp, cancelCall]
          rw [if_pos hu]
          rfl
        simp [stepRide, he]
  | updStatus uid s =>
      have he : ∃ e, applyOp ride (.updStatus uid s) = .error e := by
        simp only [applyOp, updateStatusCall]
        by_cases hd : ride.driver = some uid
        · rw [if_neg (not_not_intro hd)]
          by_cases hs : s = .accepted ∨ s = .arrived
              ∨ s = .started ∨ s = .completed
          · rw [if_pos hs]
            unfold Ride.updateStatus
            rw [if_neg (by rcases h with h | h <;> simp [h])]
            exact ⟨_, rfl⟩
          · rw [if_neg hs]
            exact ⟨_, rfl⟩
        · rw [if_pos hd]
          exact ⟨_, rfl⟩
      obtain ⟨e, he⟩ := he
      simp [stepRide, he]
  | rate uid rating fb =>
      cases he : applyOp ride (.rate uid rating fb) with
      | error e => simp [stepRide, he]
      | ok r' =>
          have hr := rateCall_ok_cases ride uid rating fb r'
            (by simpa [applyOp] using he)
          simp [stepRide, he, hr.2.2.2]
  | track uid coords speed heading =>
      cases he : applyOp ride (.track uid coords speed heading) with
      | error e => simp [stepRide, he]
      | ok r' =>
          have hr := trackCall_ok_cases ride uid coords speed heading r'
            (by simpa [applyOp] using he)
          simp [stepRide, he, hr, Ride.addTrackingLocation]

lemma runOps_terminal (ops : List RideOp) :
    ∀ ride : Ride, ride.status = .completed ∨ ride.status = .cancelled →
      (runOps ride ops).status = ride.status := by
  induction ops with
  | nil => intro ride _; rfl
  | cons op rest ih =>
      intro ride h
      have h1 := stepRide_terminal ride op h
      have h2 : (stepRide ride op).status = .completed ∨
          (stepRide ride op).status = .cancelled := by
        rw [h1]; exact h
      calc (runOps ride (op :: rest)).status
          = (runOps (stepRide ride op) rest).status := rfl
        _ = (stepRide ride op).status := ih (stepRide ride op) h2
        _ = ride.status := h1

/-- C5: a ride whose status is `completed` or `cancelled` is never moved to
another state by any sequence of calls — every call either fails (leaving the
record untouched) or, as rating and tracking do, succeeds without changing
the status — and in particular a cancel call by the requester on such a ride
fails with AlreadyFinalized and leaves the ride unchanged. -/
theorem terminal_states_monotone (ride : Ride) (ops : List RideOp)
    (reason : String)
    (h : ride.status = .completed ∨ ride.status = .cancelled) :
    (runOps ride ops).status = ride.status ∧
    cancelCall ride ride.user reason = .error .AlreadyFinalized ∧
    stepRide ride (.cancel ride.user reason) = ride := by
  have hc : cancelCall ride ride.user reason = .error .AlreadyFinalized := by
    unfold cancelCall
    rw [if_neg (not_not_intro rfl), if_pos h]
  have ha : applyOp ride (.cancel ride.user reason) =
      .error .AlreadyFinalized := by
    simp only [applyOp, hc]
    rfl
  exact ⟨runOps_terminal ops ride h, hc, by simp [stepRide, ha]⟩

/-- C5 witness: the concrete completed ride survives a sample sequence of
calls of every kind with its status intact, and cancelling it fails with
AlreadyFinalized without changing the record. -/
theorem terminal_states_witness :
    (runOps completedRide opsSample).status = completedRide.status ∧
    cancelCall completedRide completedRide.user lateReason =
      .error .AlreadyFinalized ∧
    stepRide completedRide (.cancel completedRide.user lateReason) =
      completedRide :=
  terminal_states_monotone completedRide opsSample lateReason (by decide)

/-- C7: after a successful rate call on a completed ride with an assigned
driver, the driver's profile rating is exactly the arithmetic mean of the
ratings of all completed rides of that driver carrying a user rating
(computed over the updated store, so the new rating is included), rounded to
one decimal place; recomputing the average over the same updated store
returns exactly the stored value, so the recomputation is idempotent. -/
theorem driver_rating_average (rides : List Ride) (profiles : List (Nat × ℚ))
    (rideId uid : Nat) (rating : ℚ) (fb : String) (ride : Ride) (d : Nat)
    (rides' : List Ride) (profiles' : List (Nat × ℚ))
    (hfind : rides.find? (fun r => r.rid = rideId) = some ride)
    (hdrv : ride.driver = some d)
    (hok : rateEndpoint rides profiles rideId uid rating fb =
      .ok (rides', profiles')) :
    ∃ avg, driverAverage rides' d = some avg ∧
      avg = round1 ((ratedRatings rides' d).sum /
        ((ratedRatings rides' d).length : ℚ)) ∧
      profiles' = setDriverRating profiles d avg := by
  unfold rateEndpoint at hok
  split at hok
  · exact Except.noConfusion hok
  next x heq =>
    rw [hfind] at heq
    injection heq with heq
    subst heq
    split at hok
    · exact Except.noConfusion hok
    next ride' heq2 =>
      obtain ⟨huser, hstat, hnt, hr'⟩ :=
        rateCall_ok_cases ride uid rating fb ride' heq2
      have hmem : ride ∈ rides := List.mem_of_find?_eq_some hfind
      have hrid : ride.rid = rideId := by
        have h0 := List.find?_some hfind
        simpa using h0
      have hmem' : ride' ∈
          rides.map (fun r => if r.rid = rideId then ride' else r) := by
        have h0 := List.mem_map_of_mem
          (fun r => if r.rid = rideId then ride' else r) hmem
        simpa [hrid] using h0
      have hmemR : rating ∈ ratedRatings
          (rides.map (fun r => if r.rid = rideId then ride' else r)) d := by
        unfold ratedRatings
        apply List.mem_filterMap.mpr
        refine ⟨ride', ?_, ?_⟩
        · apply List.mem_filter.mpr
          refine ⟨hmem', ?_⟩
          simp [hr', hdrv, hstat]
        · simp [hr']
      have hlen : (ratedRatings
          (rides.map (fun r => if r.rid = rideId then ride' else r))
            d).length ≠ 0 := by
        intro h0
        exact List.ne_nil_of_mem hmemR (List.length_eq_zero.mp h0)
      split at hok
      next heq3 =>
        rw [hdrv] at heq3
        exact Option.noConfusion heq3
      next d0 heq3 =>
        rw [hdrv] at heq3
        injection heq3 with heq3
        subst heq3
        split at hok
        next heq4 =>
          unfold driverAverage at heq4
          rw [if_neg hlen] at heq4
          exact Option.noConfusion heq4
        next avg heq4 =>
          have heq4' := heq4
          unfold driverAverage at heq4'
          rw [if_neg hlen] at heq4'
          injection heq4' with havg
          simp only [Except.ok.injEq, Prod.mk.injEq] at hok
          obtain ⟨hr, hp⟩ := hok
          subst hr
          subst hp
          exact ⟨avg, heq4, havg.symm, rfl⟩

/-- C7 witness: rating the concrete completed ride 4 through the endpoint
writes average round1(4/1) = 4 to the driver profile, and recomputing the
average over the updated store returns the same stored value. -/
theorem driver_rating_witness :
    ∃ avg, driverAverage [ratedRide] 5 = some avg ∧
      avg = round1 ((ratedRatings [ratedRide] 5).sum /
        ((ratedRatings [ratedRide] 5).length : ℚ)) ∧
      [(5, (4 : ℚ))] = setDriverRating [(5, (0 : ℚ))] 5 avg :=
  driver_rating_average [completedRide] [(5, 0)] 1 1 4 "good" completedRide 5
    [ratedRide] [(5, 4)] (by decide) rfl
    (by
      simp [rateEndpoint, rateCall, ratingTruthy, driverAverage, ratedRatings,
        setDriverRating, completedRide, pendingRide, basePricing, ratedRide,
        round1, round_eq, List.find?]
      norm_num)

end RideShare
